import Mathlib

/-!
Shallow embedding of the order-book normalization and execution-simulation
core of the goquant-orderbook repository (src/src/app/components/
OrderSimulation.tsx utilities section, duplicated in src/unnamed/part_000).

JavaScript numbers are modelled by `Flt := Option ℚ`: `some q` is a finite
number with exact rational value `q`, and `none` stands for a non-finite
value (NaN or ±Infinity).  This collapse is faithful for this program:
non-finite values arise only from `parseFloat` failures (NaN) and from the
divisions the code performs, and the code never branches on a comparison
whose JavaScript outcome would distinguish NaN from Infinity — every
comparison (`<=`, `>`, `Math.min`) involving either of them behaves as the
"comparison is false / result is not finite" case modelled here, and
non-finite division results flow straight into output fields.
-/

namespace Orderbook

/-- JavaScript number: `some q` = finite value `q`, `none` = non-finite
(NaN or ±Infinity). -/
abbrev Flt := Option ℚ

/-- JS addition (non-finite operands propagate). -/
def fadd : Flt → Flt → Flt
  | some a, some b => some (a + b)
  | _, _ => none

/-- JS subtraction. -/
def fsub : Flt → Flt → Flt
  | some a, some b => some (a - b)
  | _, _ => none

/-- JS multiplication. -/
def fmul : Flt → Flt → Flt
  | some a, some b => some (a * b)
  | _, _ => none

/-- JS division: a zero divisor yields a non-finite result
(`x/0 = ±Infinity`, `0/0 = NaN`), as does any non-finite operand. -/
def fdiv : Flt → Flt → Flt
  | some a, some b => if b = 0 then none else some (a / b)
  | _, _ => none

/-- `Math.min`: NaN-propagating. -/
def fmin : Flt → Flt → Flt
  | some a, some b => some (min a b)
  | _, _ => none

/-- `Math.abs`. -/
def fabs : Flt → Flt
  | some a => some |a|
  | none => none

/-- JS `a <= b`: false whenever an operand is not finite
(true JS semantics: false whenever an operand is NaN; Infinity operands
never reach a comparison in this program). -/
def fle : Flt → Flt → Bool
  | some a, some b => decide (a ≤ b)
  | _, _ => false

/-- JS `a < b`, same caveats as `fle`. -/
def flt : Flt → Flt → Bool
  | some a, some b => decide (a < b)
  | _, _ => false

/-- JS falsiness of a number: `0` and NaN are falsy (so is `undefined`,
which is also mapped to `none` where the code reads `levels[0]?.price`). -/
def falsy : Flt → Bool
  | some a => decide (a = 0)
  | none => true

/-- JS `a || b` on numbers. -/
def forElse (a b : Flt) : Flt := if falsy a then b else a

/-!  `parseFloat` model: longest valid decimal-literal prefix of the
string, or NaN (`none`) when no prefix parses.  Leading blanks and an
optional sign are accepted; exponents and the literal `Infinity` are not
modelled (no input considered here uses them). -/

/-- Consume a maximal run of decimal digits: value, digit count, rest. -/
def takeDigits : List Char → ℕ × ℕ × List Char
  | [] => (0, 0, [])
  | c :: cs =>
    if c.isDigit then
      let r := takeDigits cs
      ((c.toNat - 48) * 10 ^ r.2.1 + r.1, r.2.1 + 1, r.2.2)
    else (0, 0, c :: cs)

/-- Scanning stage of `parseFloat`: sign bit, integer part, fractional
part and fractional digit count of the longest decimal-literal prefix, or
`none` when no prefix parses. -/
def scanFloat (s : List Char) : Option (Bool × ℕ × ℕ × ℕ) :=
  let t := s.dropWhile fun c => c = ' '
  let sgn : Bool × List Char :=
    match t with
    | '-' :: r => (true, r)
    | '+' :: r => (false, r)
    | r => (false, r)
  let ip := takeDigits sgn.2
  match ip.2.2 with
  | '.' :: r2 =>
    let fp := takeDigits r2
    if ip.2.1 = 0 ∧ fp.2.1 = 0 then none
    else some (sgn.1, ip.1, fp.1, fp.2.1)
  | _ => if ip.2.1 = 0 then none else some (sgn.1, ip.1, 0, 0)

/-- `parseFloat` on a character list: the scanned components interpreted
as a rational. -/
def parseFloatChars (s : List Char) : Flt :=
  (scanFloat s).map fun r =>
    (cond r.1 (-1) 1 : ℚ) * ((r.2.1 : ℚ) + (r.2.2.1 : ℚ) / 10 ^ r.2.2.2)

/-- `parseFloat` on a string. -/
def parseFloat (s : String) : Flt := parseFloatChars s.data

/-! Data model, mirroring the TypeScript interfaces. -/

/-- `OrderLevel` / `Level`: one book row. -/
structure OrderLevel where
  price : Flt
  size : Flt
  total : Flt
deriving DecidableEq

/-- `OrderbookData`: the canonical book (timestamp modelled as ℕ; it is
never read by any operation verified here). -/
structure OrderbookData where
  bids : List OrderLevel
  asks : List OrderLevel
  timestamp : ℕ
deriving DecidableEq

/-- Order side. -/
inductive Side where
  | buy
  | sell
deriving DecidableEq

/-- Order type. -/
inductive OrderType where
  | market
  | limit
deriving DecidableEq

/-- `OrderForm`: the fields `calculateOrderMetrics` reads.  The source's
`venue`, `symbol` and `timing` fields are never read by the simulator and
are omitted. -/
structure OrderForm where
  orderType : OrderType
  side : Side
  price : String
  quantity : String
deriving DecidableEq

/-- `OrderMetrics`. -/
structure OrderMetrics where
  fillPercentage : Flt
  averageFillPrice : Flt
  slippage : Flt
  marketImpact : Flt
  estimatedCost : Flt
deriving DecidableEq

/-- `DepthChartData`: one depth-chart point. -/
structure DepthChartData where
  price : Flt
  bidTotal : Flt
  askTotal : Flt
deriving DecidableEq

/-- Placeholder level for out-of-range `List.getD` reads in statements. -/
def dummyLevel : OrderLevel := { price := none, size := none, total := none }

/-! Book builder: `calculateTotals` and the OKX feed path
(`processOKXData`); the Bybit and Deribit paths differ only in field
extraction, which the claims do not touch. -/

/-- The running-sum pass of `calculateTotals` over one side: each level's
`total` becomes the accumulator after adding that level's size
(`bidTotal += bid.size; return { ...bid, total: bidTotal }`). -/
def accTotals : Flt → List OrderLevel → List OrderLevel
  | _, [] => []
  | acc, l :: ls =>
    let acc2 := fadd acc l.size
    { l with total := acc2 } :: accTotals acc2 ls

/-- `calculateTotals`: cumulative totals on both sides, accumulator
starting at 0. -/
def calculateTotals (ob : OrderbookData) : OrderbookData :=
  { ob with bids := accTotals (some 0) ob.bids, asks := accTotals (some 0) ob.asks }

/-- `processOKXData`: parse each raw `[price, size]` string pair with
`parseFloat` (no validation), `total` initialised to 0, then
`calculateTotals`. -/
def processOKXData (bids asks : List (String × String)) (ts : ℕ) : OrderbookData :=
  calculateTotals
    { bids := bids.map fun ps => { price := parseFloat ps.1, size := parseFloat ps.2, total := some 0 }
      asks := asks.map fun ps => { price := parseFloat ps.1, size := parseFloat ps.2, total := some 0 }
      timestamp := ts }

/-! Execution simulator: `calculateOrderMetrics`. -/

/-- `side === 'buy' ? orderbook.asks : orderbook.bids`. -/
def relevantLevels (ob : OrderbookData) (order : OrderForm) : List OrderLevel :=
  match order.side with
  | Side.buy => ob.asks
  | Side.sell => ob.bids

/-- `levels[0]?.price` (`none` = `undefined` when the side is empty). -/
def headPrice : List OrderLevel → Flt
  | [] => none
  | l :: _ => l.price

/-- `levels[0]?.total`. -/
def headTotal : List OrderLevel → Flt
  | [] => none
  | l :: _ => l.total

/-- Loop state of the market-order walk: `remainingQuantity`, `totalCost`,
`weightedPriceSum`, `filledQuantity`. -/
structure WalkAcc where
  remaining : Flt
  totalCost : Flt
  weighted : Flt
  filled : Flt
deriving DecidableEq

/-- The market-order `for (const level of levels)` loop, with the
`if (remainingQuantity <= 0) break` at the top of each iteration. -/
def marketWalk : List OrderLevel → WalkAcc → WalkAcc
  | [], a => a
  | level :: rest, a =>
    if fle a.remaining (some 0) then a
    else
      let fillQty := fmin a.remaining level.size
      marketWalk rest
        { remaining := fsub a.remaining fillQty
          totalCost := fadd a.totalCost (fmul fillQty level.price)
          weighted := fadd a.weighted (fmul fillQty level.price)
          filled := fadd a.filled fillQty }

/-- The limit-order crossing predicate:
`side === 'buy' ? level.price <= price : level.price >= price`. -/
def crossPred (side : Side) (price : Flt) (level : OrderLevel) : Bool :=
  match side with
  | Side.buy => fle level.price price
  | Side.sell => fle price level.price

/-- The five local metric variables just before the `return`:
fillPercentage (pre-clamp), averageFillPrice, slippage, marketImpact,
totalCost. -/
structure SimVars where
  fillPercentage : Flt
  averageFillPrice : Flt
  slippage : Flt
  marketImpact : Flt
  totalCost : Flt

/-- `calculateOrderMetrics`.  The initial `!orderbook` guard of the source
cannot fire here since the book argument is a value, not `null`;
`!order.price || !order.quantity` is string falsiness, i.e. emptiness. -/
def calculateOrderMetrics (orderbook : OrderbookData) (order : OrderForm) : Option OrderMetrics :=
  if order.price.data = [] ∨ order.quantity.data = [] then none
  else
    let price := parseFloat order.price
    let quantity := parseFloat order.quantity
    let levels := relevantLevels orderbook order
    let r : SimVars :=
      match order.orderType with
      | OrderType.market =>
        let a := marketWalk levels
          { remaining := quantity, totalCost := some 0, weighted := some 0, filled := some 0 }
        if flt (some 0) a.filled then
          let averageFillPrice := fdiv a.weighted a.filled
          let fillPercentage := fmul (fdiv a.filled quantity) (some 100)
          let bestPrice := forElse (headPrice levels) (some 0)
          let slippage := fmul (fabs (fdiv (fsub averageFillPrice bestPrice) bestPrice)) (some 100)
          let marketImpact := fmul (fdiv a.filled (forElse (headTotal levels) (some 1))) (some 100)
          ⟨fillPercentage, averageFillPrice, slippage, marketImpact, a.totalCost⟩
        else ⟨some 0, some 0, some 0, some 0, a.totalCost⟩
      | OrderType.limit =>
        let orderPosition := levels.findIdx? (crossPred order.side price)
        if orderPosition.isSome then
          ⟨some 100, price, some 0,
            fmul (fdiv quantity (forElse (headTotal levels) (some 1))) (some 100), some 0⟩
        else ⟨some 0, some 0, some 0, some 0, some 0⟩
    some
      { fillPercentage := fmin r.fillPercentage (some 100)
        averageFillPrice := r.averageFillPrice
        slippage := r.slippage
        marketImpact := r.marketImpact
        estimatedCost := forElse r.totalCost (fmul price quantity) }

/-! Depth projector: `generateDepthChartData`. -/

/-- A bid level's depth point (ask side zero). -/
def bidPoint (bid : OrderLevel) : DepthChartData :=
  { price := bid.price, bidTotal := bid.total, askTotal := some 0 }

/-- An ask level's depth point (bid side zero). -/
def askPoint (ask : OrderLevel) : DepthChartData :=
  { price := ask.price, bidTotal := some 0, askTotal := ask.total }

/-- Stable insertion used to model `Array.prototype.sort` with comparator
`(a, b) => a.price - b.price`: the new element goes before the first
strictly greater element, hence after every earlier equal one. -/
def dcInsert (x : DepthChartData) : List DepthChartData → List DepthChartData
  | [] => [x]
  | y :: ys => if flt x.price y.price then x :: y :: ys else y :: dcInsert x ys

/-- Stable sort by ascending price.  For a consistent comparator (all
prices finite) ECMAScript's sort is specified to be stable, and any stable
sort produces the same list, so this models the source's `.sort`. -/
def dcSort (l : List DepthChartData) : List DepthChartData :=
  l.foldl (fun acc x => dcInsert x acc) []

/-- `generateDepthChartData`. -/
def generateDepthChartData (orderbook : OrderbookData) : List DepthChartData :=
  let bidsData := orderbook.bids.map bidPoint
  let asksData := orderbook.asks.map askPoint
  dcSort (bidsData.reverse ++ asksData)

/-- The rational value of a level's size (0 for a non-finite size; only
used under hypotheses making the size finite). -/
def sizeQ (l : OrderLevel) : ℚ := l.size.getD 0

/-- A level has a finite, non-negative size. -/
def finiteNNSize (l : OrderLevel) : Prop := l.size.isSome = true ∧ 0 ≤ sizeQ l

instance (l : OrderLevel) : Decidable (finiteNNSize l) := by
  unfold finiteNNSize; infer_instance

/-! Helper lemmas. -/

theorem parseFloatChars_nil : parseFloatChars [] = none := rfl

theorem data_ne_nil_of_parse {s : String} {q : ℚ} (h : parseFloat s = some q) :
    s.data ≠ [] := by
  intro hnil
  rw [parseFloat, hnil, parseFloatChars_nil] at h
  exact Option.noConfusion h

theorem marketWalk_stop (ls : List OrderLevel) (a : WalkAcc)
    (h : fle a.remaining (some 0) = true) : marketWalk ls a = a := by
  cases ls <;> simp [marketWalk, h]

theorem parseFloat_one : parseFloat "1" = some 1 := by
  have h : scanFloat "1".data = some (false, 1, 0, 0) := by decide
  simp [parseFloat, parseFloatChars, h]

theorem parseFloat_two : parseFloat "2" = some 2 := by
  have h : scanFloat "2".data = some (false, 2, 0, 0) := by decide
  simp [parseFloat, parseFloatChars, h]

theorem parseFloat_three : parseFloat "3" = some 3 := by
  have h : scanFloat "3".data = some (false, 3, 0, 0) := by decide
  simp [parseFloat, parseFloatChars, h]

theorem parseFloat_five : parseFloat "5" = some 5 := by
  have h : scanFloat "5".data = some (false, 5, 0, 0) := by decide
  simp [parseFloat, parseFloatChars, h]

theorem parseFloat_fifteen : parseFloat "15" = some 15 := by
  have h : scanFloat "15".data = some (false, 15, 0, 0) := by decide
  simp [parseFloat, parseFloatChars, h]

theorem parseFloat_fifty : parseFloat "50" = some 50 := by
  have h : scanFloat "50".data = some (false, 50, 0, 0) := by decide
  simp [parseFloat, parseFloatChars, h]

theorem parseFloat_ninetynine : parseFloat "99" = some 99 := by
  have h : scanFloat "99".data = some (false, 99, 0, 0) := by decide
  simp [parseFloat, parseFloatChars, h]

theorem parseFloat_hundred : parseFloat "100" = some 100 := by
  have h : scanFloat "100".data = some (false, 100, 0, 0) := by decide
  simp [parseFloat, parseFloatChars, h]

theorem parseFloat_hundredone : parseFloat "101" = some 101 := by
  have h : scanFloat "101".data = some (false, 101, 0, 0) := by decide
  simp [parseFloat, parseFloatChars, h]

theorem parseFloat_abc : parseFloat "abc" = none := by
  have h : scanFloat "abc".data = none := by decide
  simp [parseFloat, parseFloatChars, h]

theorem parseFloat_xyz : parseFloat "xyz" = none := by
  have h : scanFloat "xyz".data = none := by decide
  simp [parseFloat, parseFloatChars, h]

theorem findIdx?_isSome_of_ex {α : Type} {p : α → Bool} {l : List α}
    (h : ∃ x ∈ l, p x = true) : (l.findIdx? p).isSome = true := by
  cases hf : l.findIdx? p with
  | none =>
    rw [List.findIdx?_eq_none_iff] at hf
    obtain ⟨x, hx, hpx⟩ := h
    rw [hf x hx] at hpx
    cases hpx
  | some k => rfl

theorem accTotals_map_price_size (ls : List OrderLevel) (a : Flt) :
    (accTotals a ls).map (fun l => (l.price, l.size)) =
      ls.map (fun l => (l.price, l.size)) := by
  induction ls generalizing a with
  | nil => rfl
  | cons l ls ih => simp [accTotals, ih]

/-- C10: for every non-empty book and every market order whose price field
is the empty string, `calculateOrderMetrics` returns no result: the
falsiness guard on `order.price` rejects the empty string even for market
orders, whose level walk never reads the price except as the
estimated-cost fallback. -/
theorem c10_market_empty_price_none (ob : OrderbookData) (od : OrderForm)
    (hmkt : od.orderType = OrderType.market) (hp : od.price = "")
    (hb : ob.bids ≠ [] ∨ ob.asks ≠ []) :
    calculateOrderMetrics ob od = none := by
  rw [calculateOrderMetrics, if_pos (Or.inl (by rw [hp]))]

theorem c10_market_empty_price_none_witness :
    calculateOrderMetrics ⟨[⟨some 99, some 1, some 1⟩], [⟨some 100, some 10, some 10⟩], 0⟩
      ⟨OrderType.market, Side.buy, "", "5"⟩ = none :=
  c10_market_empty_price_none _ _ rfl rfl (Or.inl (by simp))

/-- C8: a Market Buy of quantity 15 against asks [(100,10),(101,10)]
(cumulative totals 10, 20) fills 15 units for a cost of
10*100 + 5*101 = 1505, giving fillPercentage = 100, averageFillPrice =
1505/15, and slippage = |1505/15 - 100| / 100 * 100 = 1/3 %. -/
theorem c8_market_buy_fifteen :
    calculateOrderMetrics
        ⟨[], [⟨some 100, some 10, some 10⟩, ⟨some 101, some 10, some 20⟩], 0⟩
        ⟨OrderType.market, Side.buy, "1", "15"⟩ =
      some ⟨some 100, some (1505 / 15), some (|1505 / 15 - 100| / 100 * 100),
        some 150, some 1505⟩ := by
  norm_num [calculateOrderMetrics, relevantLevels, marketWalk, crossPred, fle, flt, fmin, fadd, fsub, fmul, fdiv, fabs, forElse, falsy, headPrice, headTotal, min_def, abs_of_nonneg, List.cons_ne_nil, Option.some_ne_none, List.findIdx?_cons, parseFloat_one, parseFloat_fifteen]

/-- C1 counterexample: on a book whose relevant side (asks, for this Buy)
is empty, `calculateOrderMetrics` does NOT return none — it returns a
zero-fill metrics value with `estimatedCost = price * quantity`. -/
theorem c1_empty_side_counterexample :
    calculateOrderMetrics ⟨[], [], 0⟩ ⟨OrderType.market, Side.buy, "100", "5"⟩ ≠ none ∧
    calculateOrderMetrics ⟨[], [], 0⟩ ⟨OrderType.market, Side.buy, "100", "5"⟩ =
      some ⟨some 0, some 0, some 0, some 0, some 500⟩ := by
  constructor <;>
    norm_num [calculateOrderMetrics, relevantLevels, marketWalk, crossPred, fle, flt, fmin, fadd, fsub, fmul, fdiv, fabs, forElse, falsy, headPrice, headTotal, min_def, abs_of_nonneg, List.cons_ne_nil, Option.some_ne_none, List.findIdx?_cons, parseFloat_hundred, parseFloat_five]

/-- C1 amended: for every book whose relevant side is empty and every
order with non-empty price and quantity strings, `calculateOrderMetrics`
returns a metrics value (not none) whose fill percentage, average fill
price, slippage and market impact are all 0 and whose estimated cost is
`parseFloat price * parseFloat quantity`; no division is ever executed on
this path. -/
theorem c1_empty_side_amended (ob : OrderbookData) (od : OrderForm)
    (hside : relevantLevels ob od = [])
    (hp : od.price.data ≠ []) (hq : od.quantity.data ≠ []) :
    calculateOrderMetrics ob od =
      some ⟨some 0, some 0, some 0, some 0,
        fmul (parseFloat od.price) (parseFloat od.quantity)⟩ := by
  rw [calculateOrderMetrics, if_neg (by simp [hp, hq])]
  cases hot : od.orderType <;>
    simp [hot, hside, marketWalk, flt, fmin, forElse, falsy, List.findIdx?]

theorem c1_empty_side_amended_witness :
    calculateOrderMetrics ⟨[⟨some 99, some 1, some 1⟩], [], 0⟩
        ⟨OrderType.market, Side.buy, "2", "3"⟩ =
      some ⟨some 0, some 0, some 0, some 0,
        fmul (parseFloat "2") (parseFloat "3")⟩ :=
  c1_empty_side_amended _ _ rfl (by decide) (by decide)

/-- C2 counterexample: a limit Buy whose price string "abc" is non-empty
but non-numeric (parseFloat = NaN) is NOT rejected: the simulator returns
a metrics value, and its estimated cost is NaN (`none`), computed as
`NaN * quantity`. -/
theorem c2_nan_counterexample :
    parseFloat "abc" = none ∧
    calculateOrderMetrics ⟨[], [⟨some 100, some 10, some 10⟩], 0⟩
        ⟨OrderType.limit, Side.buy, "abc", "5"⟩ =
      some ⟨some 0, some 0, some 0, some 0, none⟩ := by
  constructor
  · exact parseFloat_abc
  · norm_num [calculateOrderMetrics, relevantLevels, marketWalk, crossPred, fle, flt, fmin, fadd, fsub, fmul, fdiv, fabs, forElse, falsy, headPrice, headTotal, min_def, abs_of_nonneg, List.cons_ne_nil, Option.some_ne_none, List.findIdx?_cons, parseFloat_abc, parseFloat_five]

/-- C2 amended: the simulator rejects a request only when its price or
quantity string is empty; for every book and every request with non-empty
price and quantity strings — numeric or not — it returns a metrics value,
into which NaN from a non-numeric field can propagate. -/
theorem c2_nonempty_always_some (ob : OrderbookData) (od : OrderForm)
    (hp : od.price.data ≠ []) (hq : od.quantity.data ≠ []) :
    (calculateOrderMetrics ob od).isSome = true := by
  rw [calculateOrderMetrics, if_neg (by simp [hp, hq])]
  rfl

theorem c2_nonempty_always_some_witness :
    (calculateOrderMetrics ⟨[], [⟨some 100, some 10, some 10⟩], 0⟩
      ⟨OrderType.market, Side.buy, "xyz", "5"⟩).isSome = true :=
  c2_nonempty_always_some _ _ (by decide) (by decide)

/-- C3 counterexample: a market Buy against the non-empty ask side
[(100, size 0)] accumulates zero cost, yet the returned estimatedCost is
250 = price * quantity — the fall-back applies in the market branch too,
contradicting the claim that a market order's estimatedCost equals the
accumulated cost even when that cost is zero. -/
theorem c3_fallback_counterexample :
    (marketWalk [⟨some 100, some 0, some 0⟩]
        ⟨parseFloat "5", some 0, some 0, some 0⟩).totalCost = some 0 ∧
    calculateOrderMetrics ⟨[], [⟨some 100, some 0, some 0⟩], 0⟩
        ⟨OrderType.market, Side.buy, "50", "5"⟩ =
      some ⟨some 0, some 0, some 0, some 0, some 250⟩ := by
  constructor <;>
    norm_num [calculateOrderMetrics, relevantLevels, marketWalk, crossPred, fle, flt, fmin, fadd, fsub, fmul, fdiv, fabs, forElse, falsy, headPrice, headTotal, min_def, abs_of_nonneg, List.cons_ne_nil, Option.some_ne_none, List.findIdx?_cons, parseFloat_fifty, parseFloat_five]

/-- C3 amended: for every market order simulated against a book, the
returned estimatedCost equals the cost accumulated by the level walk
whenever that accumulated cost is a nonzero finite value; when the
accumulated cost is zero (or NaN) the fall-back `price * quantity`
applies — in the market branch as well as the limit branch. -/
theorem c3_market_cost_amended (ob : OrderbookData) (od : OrderForm) (c : ℚ)
    (hmkt : od.orderType = OrderType.market)
    (hp : od.price.data ≠ []) (hq : od.quantity.data ≠ [])
    (hc : (marketWalk (relevantLevels ob od)
        ⟨parseFloat od.quantity, some 0, some 0, some 0⟩).totalCost = some c)
    (hc0 : c ≠ 0) :
    ∃ m, calculateOrderMetrics ob od = some m ∧ m.estimatedCost = some c := by
  rw [calculateOrderMetrics, if_neg (by simp [hp, hq])]
  refine ⟨_, rfl, ?_⟩
  cases hf : flt (some 0) (marketWalk (relevantLevels ob od)
      ⟨parseFloat od.quantity, some 0, some 0, some 0⟩).filled <;>
    simp [hmkt, hf, hc, forElse, falsy, hc0]

theorem c3_market_cost_amended_witness :
    ∃ m, calculateOrderMetrics
        ⟨[], [⟨some 100, some 10, some 10⟩, ⟨some 101, some 10, some 20⟩], 0⟩
        ⟨OrderType.market, Side.buy, "1", "15"⟩ = some m ∧
      m.estimatedCost = some 1505 :=
  c3_market_cost_amended _ _ 1505 rfl (by decide) (by decide)
    (by norm_num [relevantLevels, marketWalk, parseFloat_fifteen, fle, fmin, fadd,
      fsub, fmul, min_def])
    (by norm_num)

/-- C4 counterexample: the OKX book builder neither drops a level whose
price token "abc" fails to parse nor fails the update: the produced book
keeps that level with a non-finite (NaN) price. -/
theorem c4_nan_level_counterexample :
    parseFloat "abc" = none ∧
    processOKXData [("abc", "5")] [("100", "2")] 0 =
      ⟨[⟨none, some 5, some 5⟩], [⟨some 100, some 2, some 2⟩], 0⟩ := by
  constructor
  · exact parseFloat_abc
  · norm_num [processOKXData, calculateTotals, accTotals, fadd,
      parseFloat_abc, parseFloat_five, parseFloat_hundred, parseFloat_two]

/-- C5 counterexample: asks = [(price 0, size 10)] is a non-empty
relevant side whose top level admits prices that the canonical-book data
model allows (finite, non-negative), and the market Buy of quantity
5 ≤ 10 fills entirely at that level — yet slippage is NaN (`none`), not 0,
because the best price 0 is substituted by the `|| 0` guard and then
divided by. -/
theorem c5_zero_price_counterexample :
    calculateOrderMetrics ⟨[], [⟨some 0, some 10, some 10⟩], 0⟩
        ⟨OrderType.market, Side.buy, "1", "5"⟩ =
      some ⟨some 100, some 0, none, some 50, some 5⟩ := by
  norm_num [calculateOrderMetrics, relevantLevels, marketWalk, crossPred, fle, flt, fmin,
    fadd, fsub, fmul, fdiv, fabs, forElse, falsy, headPrice, headTotal, min_def,
    abs_of_nonneg, List.cons_ne_nil, Option.some_ne_none, List.findIdx?_cons,
    parseFloat_one, parseFloat_five]

/-- C5 amended: for every non-empty relevant side whose top level has a
finite positive price and finite size, and every market order (non-empty
price field) whose quantity parses to q with 0 < q ≤ that top size, the
simulator fills entirely at the top level: fillPercentage = 100,
averageFillPrice = the top level's price, slippage = 0. -/
theorem c5_top_level_fill_amended (ob : OrderbookData) (od : OrderForm)
    (lv : OrderLevel) (rest : List OrderLevel) (p0 s0 q : ℚ)
    (hmkt : od.orderType = OrderType.market)
    (hp : od.price.data ≠ [])
    (hq : parseFloat od.quantity = some q)
    (hq0 : 0 < q)
    (hlv : relevantLevels ob od = lv :: rest)
    (hp0 : lv.price = some p0) (hp0pos : 0 < p0)
    (hs0 : lv.size = some s0) (hqs : q ≤ s0) :
    ∃ m, calculateOrderMetrics ob od = some m ∧
      m.fillPercentage = some 100 ∧ m.averageFillPrice = some p0 ∧
      m.slippage = some 0 := by
  have hqd : od.quantity.data ≠ [] := data_ne_nil_of_parse hq
  obtain ⟨ot, sd, ps, qs⟩ := od
  simp only at hmkt hp hq hqd hlv
  subst hmkt
  rw [calculateOrderMetrics, if_neg (by simp [hp, hqd])]
  have hwalk : marketWalk (lv :: rest) ⟨some q, some 0, some 0, some 0⟩
      = ⟨some 0, some (q * p0), some (q * p0), some q⟩ := by
    simp only [marketWalk]
    rw [if_neg (by simp [fle, not_le.mpr hq0])]
    simp only [hp0, hs0, fmin, min_eq_left hqs, fsub, fadd, fmul, sub_self, zero_add]
    apply marketWalk_stop
    simp [fle]
  refine ⟨_, rfl, ?_, ?_, ?_⟩ <;>
    simp [hlv, hq, hwalk, flt, hq0, fdiv, fmul, fmin, fabs, fsub, forElse, falsy,
      headPrice, hp0, hq0.ne', hp0pos.ne', div_self, mul_div_cancel_left₀,
      sub_self, zero_div, abs_zero, zero_mul, one_mul, min_self]

theorem c5_top_level_fill_amended_witness :
    ∃ m, calculateOrderMetrics ⟨[], [⟨some 100, some 10, some 10⟩], 0⟩
        ⟨OrderType.market, Side.buy, "1", "5"⟩ = some m ∧
      m.fillPercentage = some 100 ∧ m.averageFillPrice = some 100 ∧
      m.slippage = some 0 :=
  c5_top_level_fill_amended _ _ ⟨some 100, some 10, some 10⟩ [] 100 10 5
    rfl (by decide) parseFloat_five (by norm_num) rfl rfl (by norm_num) rfl (by norm_num)

/-- C6 counterexample: a limit Buy at 101 (crossing) against the single
ask level (price 100, size 0, cumulative 0) gets marketImpact
5 / 1 * 100 = 500 from the code's `levels[0]?.total || 1` substitution,
whereas the claim's formula quantity / cumulative * 100 divides by the
zero cumulative and is not a finite number. -/
theorem c6_zero_cumulative_counterexample :
    calculateOrderMetrics ⟨[], [⟨some 100, some 0, some 0⟩], 0⟩
        ⟨OrderType.limit, Side.buy, "101", "5"⟩ =
      some ⟨some 100, some 101, some 0, some 500, some 505⟩ ∧
    fmul (fdiv (some 5) (some 0)) (some 100) = none := by
  constructor
  · norm_num [calculateOrderMetrics, relevantLevels, marketWalk, crossPred, fle, flt,
      fmin, fadd, fsub, fmul, fdiv, fabs, forElse, falsy, headPrice, headTotal,
      min_def, abs_of_nonneg, List.cons_ne_nil, Option.some_ne_none,
      List.findIdx?_cons, parseFloat_hundredone, parseFloat_five]
  · simp [fdiv, fmul]

/-- C6 amended: for every limit order (price parsing to p, quantity to q)
against a non-empty relevant side: if some level crosses (Buy: level
price ≤ p; Sell: level price ≥ p) then fillPercentage = 100,
averageFillPrice = p, slippage = 0 and marketImpact = q divided by the
first level's cumulative size — with 1 substituted when that cumulative
is zero or non-finite — times 100; if no level crosses, fillPercentage,
averageFillPrice, slippage and marketImpact are all zero. -/
theorem c6_limit_amended (ob : OrderbookData) (od : OrderForm) (p q : ℚ)
    (hlim : od.orderType = OrderType.limit)
    (hp : parseFloat od.price = some p)
    (hq : parseFloat od.quantity = some q)
    (hne : relevantLevels ob od ≠ []) :
    ∃ m, calculateOrderMetrics ob od = some m ∧
      ((∃ l ∈ relevantLevels ob od, crossPred od.side (some p) l = true) →
        m.fillPercentage = some 100 ∧ m.averageFillPrice = some p ∧
        m.slippage = some 0 ∧
        m.marketImpact = fmul (fdiv (some q)
          (forElse (headTotal (relevantLevels ob od)) (some 1))) (some 100)) ∧
      ((∀ l ∈ relevantLevels ob od, crossPred od.side (some p) l = false) →
        m.fillPercentage = some 0 ∧ m.averageFillPrice = some 0 ∧
        m.slippage = some 0 ∧ m.marketImpact = some 0) := by
  have hpd : od.price.data ≠ [] := data_ne_nil_of_parse hp
  have hqd : od.quantity.data ≠ [] := data_ne_nil_of_parse hq
  obtain ⟨ot, sd, ps, qs⟩ := od
  simp only at hlim hp hq hpd hqd hne ⊢
  subst hlim
  rcases hfind : (relevantLevels ob ⟨OrderType.limit, sd, ps, qs⟩).findIdx?
      (crossPred sd (some p)) with _ | k
  · refine ⟨⟨some 0, some 0, some 0, some 0, forElse (some 0) (fmul (some p) (some q))⟩,
      ?_, ?_, ?_⟩
    · rw [calculateOrderMetrics, if_neg (by simp [hpd, hqd])]
      simp only [hp, hq, hfind]
      norm_num [fmin, min_def]
    · intro hex
      have h2 := findIdx?_isSome_of_ex hex
      rw [hfind] at h2
      cases h2
    · intro _
      exact ⟨rfl, rfl, rfl, rfl⟩
  · refine ⟨⟨some 100, some p, some 0,
      fmul (fdiv (some q)
        (forElse (headTotal (relevantLevels ob ⟨OrderType.limit, sd, ps, qs⟩)) (some 1)))
        (some 100),
      forElse (some 0) (fmul (some p) (some q))⟩, ?_, ?_, ?_⟩
    · rw [calculateOrderMetrics, if_neg (by simp [hpd, hqd])]
      simp only [hp, hq, hfind]
      simp [fmin, min_self]
    · intro _
      exact ⟨rfl, rfl, rfl, rfl⟩
    · intro hall
      rw [List.findIdx?_eq_none_iff.mpr hall] at hfind
      cases hfind

theorem c6_limit_amended_witness :
    (∃ m, calculateOrderMetrics ⟨[], [⟨some 100, some 10, some 10⟩], 0⟩
        ⟨OrderType.limit, Side.buy, "101", "5"⟩ = some m ∧
      m.fillPercentage = some 100 ∧ m.averageFillPrice = some 101 ∧
      m.slippage = some 0 ∧ m.marketImpact = some 50) ∧
    (∃ m, calculateOrderMetrics ⟨[], [⟨some 100, some 10, some 10⟩], 0⟩
        ⟨OrderType.limit, Side.buy, "99", "5"⟩ = some m ∧
      m.fillPercentage = some 0 ∧ m.averageFillPrice = some 0 ∧
      m.slippage = some 0 ∧ m.marketImpact = some 0) := by
  constructor
  · obtain ⟨m, hm, hcross, -⟩ := c6_limit_amended ⟨[], [⟨some 100, some 10, some 10⟩], 0⟩
        ⟨OrderType.limit, Side.buy, "101", "5"⟩ 101 5 rfl parseFloat_hundredone
        parseFloat_five (by simp [relevantLevels])
    obtain ⟨h1, h2, h3, h4⟩ := hcross
      ⟨⟨some 100, some 10, some 10⟩, by simp [relevantLevels], by norm_num [crossPred, fle]⟩
    refine ⟨m, hm, h1, h2, h3, ?_⟩
    rw [h4]
    norm_num [relevantLevels, headTotal, forElse, falsy, fdiv, fmul]
  · obtain ⟨m, hm, -, hnone⟩ := c6_limit_amended ⟨[], [⟨some 100, some 10, some 10⟩], 0⟩
        ⟨OrderType.limit, Side.buy, "99", "5"⟩ 99 5 rfl parseFloat_ninetynine
        parseFloat_five (by simp [relevantLevels])
    obtain ⟨h1, h2, h3, h4⟩ := hnone (by
      intro l hl
      simp [relevantLevels] at hl
      subst hl
      norm_num [crossPred, fle])
    exact ⟨m, hm, h1, h2, h3, h4⟩

/-- C4 amended: the book builder performs no validation at all — each
produced level's price and size are exactly the `parseFloat` of the raw
tokens (so a malformed token yields a retained level with NaN price or
size, never a dropped level or a failed update). -/
theorem c4_no_validation_amended (bids asks : List (String × String)) (ts : ℕ) :
    (processOKXData bids asks ts).bids.map (fun l => (l.price, l.size)) =
      bids.map (fun ps => (parseFloat ps.1, parseFloat ps.2)) ∧
    (processOKXData bids asks ts).asks.map (fun l => (l.price, l.size)) =
      asks.map (fun ps => (parseFloat ps.1, parseFloat ps.2)) := by
  constructor <;>
    simp [processOKXData, calculateTotals, accTotals_map_price_size, List.map_map,
      Function.comp]

/-! Lemmas for the cumulative-totals invariant (C7). -/

theorem sum_take_mono (l : List ℚ) (h : ∀ x ∈ l, 0 ≤ x) :
    ∀ i j, i ≤ j → (l.take i).sum ≤ (l.take j).sum := by
  induction l with
  | nil => intro i j _; simp
  | cons x xs ih =>
    intro i j hij
    cases i with
    | zero =>
      simp only [List.take_zero, List.sum_nil]
      apply List.sum_nonneg
      intro y hy
      exact h y (List.take_subset _ _ hy)
    | succ i =>
      cases j with
      | zero => omega
      | succ j =>
        simp only [List.take_succ_cons, List.sum_cons]
        have hx := ih (fun y hy => h y (List.mem_cons_of_mem _ hy)) i j (by omega)
        linarith

theorem accTotals_length (ls : List OrderLevel) (a : Flt) :
    (accTotals a ls).length = ls.length := by
  induction ls generalizing a with
  | nil => rfl
  | cons l ls ih => simp [accTotals, ih]

theorem accTotals_total (ls : List OrderLevel)
    (hfin : ∀ l ∈ ls, l.size.isSome = true) :
    ∀ (a : ℚ) i, i < ls.length →
      ((accTotals (some a) ls).getD i dummyLevel).total
        = some (a + ((ls.take (i + 1)).map sizeQ).sum) := by
  induction ls with
  | nil => intro a i hi; simp at hi
  | cons l ls ih =>
    intro a i hi
    obtain ⟨s, hs⟩ := Option.isSome_iff_exists.mp (hfin l (List.mem_cons_self _ _))
    have hrest : ∀ x ∈ ls, x.size.isSome = true :=
      fun x hx => hfin x (List.mem_cons_of_mem _ hx)
    cases i with
    | zero => simp [accTotals, hs, fadd, sizeQ]
    | succ i =>
      have hi2 : i < ls.length := by simpa using hi
      simp only [accTotals, hs, fadd, List.getD_cons_succ]
      rw [ih hrest (a + s) i hi2]
      simp [List.take_succ_cons, sizeQ, hs, add_assoc]

theorem totals_side_spec (ls : List OrderLevel) (h : ∀ l ∈ ls, finiteNNSize l) :
    (accTotals (some 0) ls).length = ls.length ∧
    (∀ i, i < ls.length → ((accTotals (some 0) ls).getD i dummyLevel).total
        = some (((ls.take (i + 1)).map sizeQ).sum)) ∧
    (∀ i j, i ≤ j → j < ls.length →
      fle (((accTotals (some 0) ls).getD i dummyLevel).total)
          (((accTotals (some 0) ls).getD j dummyLevel).total) = true) ∧
    (ls ≠ [] → ((accTotals (some 0) ls).getD (ls.length - 1) dummyLevel).total
        = some ((ls.map sizeQ).sum)) := by
  have hfin : ∀ l ∈ ls, l.size.isSome = true := fun l hl => (h l hl).1
  have hform : ∀ i, i < ls.length → ((accTotals (some 0) ls).getD i dummyLevel).total
      = some (((ls.take (i + 1)).map sizeQ).sum) := by
    intro i hi
    rw [accTotals_total ls hfin 0 i hi, zero_add]
  refine ⟨accTotals_length ls (some 0), hform, ?_, ?_⟩
  · intro i j hij hj
    rw [hform i (lt_of_le_of_lt hij hj), hform j hj]
    simp only [fle, decide_eq_true_eq]
    rw [List.map_take, List.map_take]
    apply sum_take_mono
    · intro x hx
      obtain ⟨l, hl, rfl⟩ := List.mem_map.mp hx
      exact (h l hl).2
    · omega
  · intro hne
    have hpos : 0 < ls.length := List.length_pos.mpr hne
    rw [hform (ls.length - 1) (by omega)]
    rw [Nat.sub_add_cancel hpos, List.take_length]

/-- C7: for every book whose levels all have finite, non-negative sizes,
the cumulative totals computed by the book builder (`calculateTotals`)
satisfy: the `total` at index i equals the sum of the sizes at indices
0..i of that side, the totals are monotonically non-decreasing along the
side, and the last total equals the sum of all sizes on the side — on the
bids and on the asks alike. -/
theorem c7_cumulative_totals (ob : OrderbookData)
    (hb : ∀ l ∈ ob.bids, finiteNNSize l) (ha : ∀ l ∈ ob.asks, finiteNNSize l) :
    ((calculateTotals ob).bids.length = ob.bids.length ∧
      (∀ i, i < ob.bids.length → (((calculateTotals ob).bids.getD i dummyLevel).total
          = some (((ob.bids.take (i + 1)).map sizeQ).sum))) ∧
      (∀ i j, i ≤ j → j < ob.bids.length →
        fle (((calculateTotals ob).bids.getD i dummyLevel).total)
            (((calculateTotals ob).bids.getD j dummyLevel).total) = true) ∧
      (ob.bids ≠ [] →
        ((calculateTotals ob).bids.getD (ob.bids.length - 1) dummyLevel).total
          = some ((ob.bids.map sizeQ).sum))) ∧
    ((calculateTotals ob).asks.length = ob.asks.length ∧
      (∀ i, i < ob.asks.length → (((calculateTotals ob).asks.getD i dummyLevel).total
          = some (((ob.asks.take (i + 1)).map sizeQ).sum))) ∧
      (∀ i j, i ≤ j → j < ob.asks.length →
        fle (((calculateTotals ob).asks.getD i dummyLevel).total)
            (((calculateTotals ob).asks.getD j dummyLevel).total) = true) ∧
      (ob.asks ≠ [] →
        ((calculateTotals ob).asks.getD (ob.asks.length - 1) dummyLevel).total
          = some ((ob.asks.map sizeQ).sum))) := by
  constructor
  · exact totals_side_spec ob.bids hb
  · exact totals_side_spec ob.asks ha

theorem c7_cumulative_totals_witness :
    ((calculateTotals ⟨[⟨some 100, some 5, some 0⟩, ⟨some 99, some 3, some 0⟩],
        [⟨some 101, some 2, some 0⟩], 0⟩).bids.getD 1 dummyLevel).total = some 8 ∧
    fle ((calculateTotals ⟨[⟨some 100, some 5, some 0⟩, ⟨some 99, some 3, some 0⟩],
          [⟨some 101, some 2, some 0⟩], 0⟩).bids.getD 0 dummyLevel).total
        ((calculateTotals ⟨[⟨some 100, some 5, some 0⟩, ⟨some 99, some 3, some 0⟩],
          [⟨some 101, some 2, some 0⟩], 0⟩).bids.getD 1 dummyLevel).total = true := by
  obtain ⟨⟨hlen, hform, hmono, hlast⟩, -⟩ :=
    c7_cumulative_totals
      ⟨[⟨some 100, some 5, some 0⟩, ⟨some 99, some 3, some 0⟩],
        [⟨some 101, some 2, some 0⟩], 0⟩
      (by norm_num [finiteNNSize, sizeQ]) (by norm_num [finiteNNSize, sizeQ])
  constructor
  · rw [hform 1 (by norm_num)]
    norm_num [sizeQ]
  · exact hmono 0 1 (by norm_num) (by norm_num)

/-! Lemmas for the depth projection (C9). -/

theorem fle_of_flt {a b : Flt} (h : flt a b = true) : fle a b = true := by
  cases a <;> cases b <;> simp [flt, fle] at *
  exact le_of_lt h

theorem flt_fle_trans {a b c : Flt} (h1 : flt a b = true) (h2 : fle b c = true) :
    fle a c = true := by
  cases a <;> cases b <;> cases c <;> simp [flt, fle] at *
  exact le_of_lt (lt_of_lt_of_le h1 h2)

theorem dcInsert_perm (x : DepthChartData) (l : List DepthChartData) :
    (dcInsert x l).Perm (x :: l) := by
  induction l with
  | nil => exact List.Perm.refl _
  | cons y ys ih =>
    by_cases h : flt x.price y.price
    · simp [dcInsert, h]
    · simp only [dcInsert, h, if_false, Bool.false_eq_true, ite_false]
      exact (ih.cons y).trans (List.Perm.swap x y ys)

theorem dcFold_perm (l : List DepthChartData) :
    ∀ acc, (l.foldl (fun a x => dcInsert x a) acc).Perm (l ++ acc) := by
  induction l with
  | nil => intro acc; exact List.Perm.refl _
  | cons x xs ih =>
    intro acc
    simp only [List.foldl_cons, List.cons_append]
    exact (ih (dcInsert x acc)).trans
      ((List.Perm.append_left xs (dcInsert_perm x acc)).trans List.perm_middle)

theorem dcSort_perm (l : List DepthChartData) : (dcSort l).Perm l := by
  simpa using dcFold_perm l []

theorem dcInsert_sorted (x : DepthChartData) (l : List DepthChartData)
    (hl : ∀ z ∈ l, z.price.isSome = true) (hx : x.price.isSome = true)
    (hs : l.Pairwise fun a b => fle a.price b.price = true) :
    (dcInsert x l).Pairwise fun a b => fle a.price b.price = true := by
  induction l with
  | nil => simp [dcInsert]
  | cons y ys ih =>
    obtain ⟨py, hy⟩ := Option.isSome_iff_exists.mp (hl y (List.mem_cons_self _ _))
    obtain ⟨px, hxv⟩ := Option.isSome_iff_exists.mp hx
    rw [List.pairwise_cons] at hs
    obtain ⟨hyall, hys⟩ := hs
    by_cases h : flt x.price y.price
    · simp only [dcInsert, h, if_true]
      rw [List.pairwise_cons]
      refine ⟨?_, List.pairwise_cons.mpr ⟨hyall, hys⟩⟩
      intro z hz
      rcases List.mem_cons.mp hz with rfl | hz2
      · exact fle_of_flt h
      · exact flt_fle_trans h (hyall z hz2)
    · simp only [dcInsert, h, if_false, Bool.false_eq_true, ite_false]
      rw [List.pairwise_cons]
      constructor
      · intro z hz
        rcases List.mem_cons.mp ((dcInsert_perm x ys).mem_iff.mp hz) with rfl | hz2
        · rw [hy, hxv] at h ⊢
          simp only [flt, decide_eq_true_eq] at h
          simp only [fle, decide_eq_true_eq]
          exact le_of_not_lt (by simpa using h)
        · exact hyall z hz2
      · exact ih (fun z hz => hl z (List.mem_cons_of_mem _ hz)) hys

theorem dcFold_sorted (l : List DepthChartData) :
    ∀ acc, (∀ z ∈ l, z.price.isSome = true) → (∀ z ∈ acc, z.price.isSome = true) →
      acc.Pairwise (fun a b => fle a.price b.price = true) →
      (l.foldl (fun a x => dcInsert x a) acc).Pairwise
        (fun a b => fle a.price b.price = true) := by
  induction l with
  | nil => intro acc _ _ hacc; exact hacc
  | cons x xs ih =>
    intro acc hl hacc hsort
    simp only [List.foldl_cons]
    refine ih (dcInsert x acc) (fun z hz => hl z (List.mem_cons_of_mem _ hz)) ?_ ?_
    · intro z hz
      rcases List.mem_cons.mp ((dcInsert_perm x acc).mem_iff.mp hz) with rfl | hz2
      · exact hl z (List.mem_cons_self _ _)
      · exact hacc z hz2
    · exact dcInsert_sorted x acc hacc (hl x (List.mem_cons_self _ _)) hsort

theorem dcSort_sorted (l : List DepthChartData)
    (hl : ∀ z ∈ l, z.price.isSome = true) :
    (dcSort l).Pairwise fun a b => fle a.price b.price = true :=
  dcFold_sorted l [] hl (by simp) (by simp)

/-- C9: for every canonical book (all level prices finite, as the data
model requires), the depth projection has exactly one point per level of
either side, is sorted ascending by price, and is a permutation of the
bid points (bid cumulative, zero ask) and ask points (zero bid, ask
cumulative) — two same-price points from opposite sides stay separate;
in particular bids [(100,5)] and asks [(101,3)] project to exactly
(100, bid 5, ask 0) then (101, bid 0, ask 3). -/
theorem c9_depth_projection (ob : OrderbookData)
    (hfin : ∀ l ∈ ob.bids ++ ob.asks, l.price.isSome = true) :
    (generateDepthChartData ob).length = ob.bids.length + ob.asks.length ∧
    (generateDepthChartData ob).Pairwise (fun a b => fle a.price b.price = true) ∧
    (generateDepthChartData ob).Perm
      (ob.bids.map bidPoint ++ ob.asks.map askPoint) ∧
    generateDepthChartData ⟨[⟨some 100, some 5, some 5⟩], [⟨some 101, some 3, some 3⟩], 0⟩
      = [⟨some 100, some 5, some 0⟩, ⟨some 101, some 0, some 3⟩] := by
  have hperm : (generateDepthChartData ob).Perm
      (ob.bids.map bidPoint ++ ob.asks.map askPoint) := by
    unfold generateDepthChartData
    exact (dcSort_perm _).trans
      (List.Perm.append_right _ (List.reverse_perm _))
  refine ⟨?_, ?_, hperm, ?_⟩
  · rw [hperm.length_eq]
    simp
  · apply dcSort_sorted
    intro z hz
    simp only [List.mem_append, List.mem_reverse, List.mem_map] at hz
    rcases hz with ⟨l, hl, rfl⟩ | ⟨l, hl, rfl⟩
    · exact hfin l (List.mem_append.mpr (Or.inl hl))
    · exact hfin l (List.mem_append.mpr (Or.inr hl))
  · norm_num [generateDepthChartData, dcSort, dcInsert, bidPoint, askPoint, flt]

theorem c9_depth_projection_witness :
    (generateDepthChartData ⟨[⟨some 100, some 5, some 5⟩],
        [⟨some 101, some 3, some 3⟩], 0⟩).length = 2 ∧
    generateDepthChartData ⟨[⟨some 100, some 5, some 5⟩], [⟨some 101, some 3, some 3⟩], 0⟩
      = [⟨some 100, some 5, some 0⟩, ⟨some 101, some 0, some 3⟩] := by
  obtain ⟨h1, -, -, h4⟩ :=
    c9_depth_projection ⟨[⟨some 100, some 5, some 5⟩], [⟨some 101, some 3, some 3⟩], 0⟩
      (by decide)
  exact ⟨h1, h4⟩

end Orderbook
